import Mathlib

/-!
Shallow embedding of the `turf` repository core:
  * `src/lib/inside.js` — the even-odd (ray-casting) point-in-polygon classifier
    (`PolygonHitTester.classify` in the specification).
  * `src/packages/turf-shortest-path/index.js` — the obstacle-avoiding
    shortest-path pipeline (grid construction, rasterizing scan, endpoint
    location, path reconstruction).

JavaScript numbers are embedded as exact rationals (`ℚ`); external turf
collaborators (`@turf/bbox`+`@turf/transform-scale`, `@turf/distance`,
`@turf/inside`, `javascript-astar`) are abstract function parameters, and
`@turf/clean-coords` is modelled from the spec.
-/

namespace Turf

/-- A planar point `(x, y)`, as in GeoJSON coordinates. -/
abbrev Point := ℚ × ℚ

/-! ## src/lib/inside.js -/

/-- The toggle condition tested for each edge in `src/lib/inside.js`
(lines 19–22): the point's y strictly between the endpoints' y
(`(y_i > y) != (y_j > y)`) and the x-intersection test
`x < (x_j - x_i) * (y - y_i) / (y_j - y_i) + x_i`. -/
def edgeToggle (x y : ℚ) (vi vj : Point) : Bool :=
  (decide (vi.2 > y) != decide (vj.2 > y)) &&
    decide (x < (vj.1 - vi.1) * (y - vi.2) / (vj.2 - vi.2) + vi.1)

/-- One iteration of the loop in `src/lib/inside.js` (lines 12–27).  The state
is `(isInside, j)`; note the source updates `j = i` only inside the `if`,
i.e. only when a toggle occurred. -/
def classifyStep (x y : ℚ) (ring : List Point) (st : Bool × Nat) (i : Nat) :
    Bool × Nat :=
  let vi := ring.getD i (0, 0)
  let vj := ring.getD st.2 (0, 0)
  if edgeToggle x y vi vj then (!st.1, i) else st

/-- `src/lib/inside.js`: `module.exports = function(point, polygon, done)`.
`ring` is `polygon.geometry.coordinates[0]`; the result is the `isInside`
value handed to the callback.  `i` runs over all vertices, `j` starts at
`polyLength - 1` and is reassigned to `i` only when an edge toggles. -/
def classify (p : Point) (ring : List Point) : Bool :=
  ((List.range ring.length).foldl (classifyStep p.1 p.2 ring)
    (false, ring.length - 1)).1

/-- Modelled from the spec: the textbook even-odd ray-casting algorithm in
which the previous-vertex index is advanced on every iteration
(`j = i - 1`, with `j` initially the last vertex).  This is the second
definition of the refinement claim comparing the source's edge iteration
with the standard algorithm. -/
def classifyTextbook (p : Point) (ring : List Point) : Bool :=
  (List.range ring.length).foldl (fun ins i =>
    let vi := ring.getD i (0, 0)
    let vj := ring.getD (if i = 0 then ring.length - 1 else i - 1) (0, 0)
    if edgeToggle p.1 p.2 vi vj then !ins else ins) false

/-- The square ring of the spec's scenario 3. -/
def squareRing : List Point := [(0, 0), (0, 10), (10, 10), (10, 0), (0, 0)]

/-! ## src/packages/turf-shortest-path/index.js — grid loops

The two `while` loops of the single grid pass (lines 96–132):
`while (currentX <= east) { ...; currentX += cellWidth }` and
`while (currentY >= south) { ...; currentY -= cellHeight }`.
They are embedded as the lists of loop-counter values; the guard
`0 < step` makes the well-founded recursion explicit (with a zero or
negative step the JavaScript loop would never terminate). -/

/-- Values taken by an ascending loop counter: start at `cur`, keep going
while `cur ≤ limit`, step by `step` (the inner column loop). -/
def qRangeUp (step limit cur : ℚ) : List ℚ :=
  if h : 0 < step ∧ cur ≤ limit then cur :: qRangeUp step limit (cur + step)
  else []
termination_by (⌊(limit - cur) / step⌋ + 1).toNat
decreasing_by
  obtain ⟨hs, hc⟩ := h
  have hnum : limit - (cur + step) = (limit - cur) - step := by ring
  have hdiv : ((limit - cur) - step) / step = (limit - cur) / step - 1 := by
    rw [sub_div, div_self hs.ne']
  have hnn : (0 : ℚ) ≤ (limit - cur) / step :=
    div_nonneg (by linarith) hs.le
  have hfl : (0 : ℤ) ≤ ⌊(limit - cur) / step⌋ := Int.floor_nonneg.2 hnn
  have hsub : ⌊(limit - cur) / step - 1⌋ = ⌊(limit - cur) / step⌋ - 1 := by
    simpa using Int.floor_sub_int ((limit - cur) / step) 1
  rw [hnum, hdiv, hsub]
  omega

/-- Values taken by a descending loop counter: start at `cur`, keep going
while `low ≤ cur`, step down by `step` (the outer row loop). -/
def qRangeDown (step low cur : ℚ) : List ℚ :=
  if h : 0 < step ∧ low ≤ cur then cur :: qRangeDown step low (cur - step)
  else []
termination_by (⌊(cur - low) / step⌋ + 1).toNat
decreasing_by
  obtain ⟨hs, hc⟩ := h
  have hnum : (cur - step) - low = (cur - low) - step := by ring
  have hdiv : ((cur - low) - step) / step = (cur - low) / step - 1 := by
    rw [sub_div, div_self hs.ne']
  have hnn : (0 : ℚ) ≤ (cur - low) / step :=
    div_nonneg (by linarith) hs.le
  have hfl : (0 : ℤ) ≤ ⌊(cur - low) / step⌋ := Int.floor_nonneg.2 hnn
  have hsub : ⌊(cur - low) / step - 1⌋ = ⌊(cur - low) / step⌋ - 1 := by
    simpa using Int.floor_sub_int ((cur - low) / step) 1
  rw [hnum, hdiv, hsub]
  omega

theorem qRangeUp_length_aux : ∀ (n : ℕ) (step limit cur : ℚ), 0 < step →
    cur ≤ limit → (⌊(limit - cur) / step⌋).toNat = n →
    (qRangeUp step limit cur).length = n + 1 := by
  intro n
  induction n with
  | zero =>
    intro step limit cur hs hc hn
    have hnn : (0 : ℚ) ≤ (limit - cur) / step :=
      div_nonneg (by linarith) hs.le
    have hfl : ⌊(limit - cur) / step⌋ = 0 := by
      have := Int.floor_nonneg.2 hnn
      omega
    have hlt : (limit - cur) / step < 1 := by
      have := Int.lt_floor_add_one ((limit - cur) / step)
      rw [hfl] at this
      simpa using this
    have hstop : ¬ (cur + step ≤ limit) := by
      intro hle
      have : (1 : ℚ) ≤ (limit - cur) / step := by
        rw [le_div_iff hs]
        linarith
      linarith
    rw [qRangeUp, dif_pos ⟨hs, hc⟩, qRangeUp, dif_neg (by tauto)]
    rfl
  | succ n ih =>
    intro step limit cur hs hc hn
    have hfl : ⌊(limit - cur) / step⌋ = (n : ℤ) + 1 := by
      have hnn : (0 : ℚ) ≤ (limit - cur) / step :=
        div_nonneg (by linarith) hs.le
      have := Int.floor_nonneg.2 hnn
      omega
    have hge : (1 : ℚ) ≤ (limit - cur) / step := by
      have h1 : ((n : ℤ) + 1 : ℚ) ≤ (limit - cur) / step := by
        have := Int.floor_le ((limit - cur) / step)
        rw [hfl] at this
        push_cast at this ⊢
        linarith
      have h2 : (0 : ℚ) ≤ (n : ℚ) := by positivity
      push_cast at h1
      linarith
    have hnext : cur + step ≤ limit := by
      rw [le_div_iff hs] at hge
      linarith
    have hfl2 : (⌊(limit - (cur + step)) / step⌋).toNat = n := by
      have hnum : limit - (cur + step) = (limit - cur) - step := by ring
      have hdiv : ((limit - cur) - step) / step = (limit - cur) / step - 1 := by
        rw [sub_div, div_self hs.ne']
      have hsub : ⌊(limit - cur) / step - 1⌋ = ⌊(limit - cur) / step⌋ - 1 := by
        simpa using Int.floor_sub_int ((limit - cur) / step) 1
      rw [hnum, hdiv, hsub, hfl]
      omega
    rw [qRangeUp, dif_pos ⟨hs, hc⟩]
    simp [ih step limit (cur + step) hs hnext hfl2]

/-- Number of iterations of the ascending loop. -/
theorem qRangeUp_length (step limit cur : ℚ) (hs : 0 < step)
    (hc : cur ≤ limit) :
    (qRangeUp step limit cur).length = (⌊(limit - cur) / step⌋).toNat + 1 :=
  qRangeUp_length_aux _ step limit cur hs hc rfl

theorem qRangeDown_length_aux : ∀ (n : ℕ) (step low cur : ℚ), 0 < step →
    low ≤ cur → (⌊(cur - low) / step⌋).toNat = n →
    (qRangeDown step low cur).length = n + 1 := by
  intro n
  induction n with
  | zero =>
    intro step low cur hs hc hn
    have hnn : (0 : ℚ) ≤ (cur - low) / step :=
      div_nonneg (by linarith) hs.le
    have hfl : ⌊(cur - low) / step⌋ = 0 := by
      have := Int.floor_nonneg.2 hnn
      omega
    have hlt : (cur - low) / step < 1 := by
      have := Int.lt_floor_add_one ((cur - low) / step)
      rw [hfl] at this
      simpa using this
    have hstop : ¬ (low ≤ cur - step) := by
      intro hle
      have : (1 : ℚ) ≤ (cur - low) / step := by
        rw [le_div_iff hs]
        linarith
      linarith
    rw [qRangeDown, dif_pos ⟨hs, hc⟩, qRangeDown, dif_neg (by tauto)]
    rfl
  | succ n ih =>
    intro step low cur hs hc hn
    have hfl : ⌊(cur - low) / step⌋ = (n : ℤ) + 1 := by
      have hnn : (0 : ℚ) ≤ (cur - low) / step :=
        div_nonneg (by linarith) hs.le
      have := Int.floor_nonneg.2 hnn
      omega
    have hge : (1 : ℚ) ≤ (cur - low) / step := by
      have h1 : ((n : ℤ) + 1 : ℚ) ≤ (cur - low) / step := by
        have := Int.floor_le ((cur - low) / step)
        rw [hfl] at this
        push_cast at this ⊢
        linarith
      have h2 : (0 : ℚ) ≤ (n : ℚ) := by positivity
      push_cast at h1
      linarith
    have hnext : low ≤ cur - step := by
      rw [le_div_iff hs] at hge
      linarith
    have hfl2 : (⌊((cur - step) - low) / step⌋).toNat = n := by
      have hnum : (cur - step) - low = (cur - low) - step := by ring
      have hdiv : ((cur - low) - step) / step = (cur - low) / step - 1 := by
        rw [sub_div, div_self hs.ne']
      have hsub : ⌊(cur - low) / step - 1⌋ = ⌊(cur - low) / step⌋ - 1 := by
        simpa using Int.floor_sub_int ((cur - low) / step) 1
      rw [hnum, hdiv, hsub, hfl]
      omega
    rw [qRangeDown, dif_pos ⟨hs, hc⟩]
    simp [ih step low (cur - step) hs hnext hfl2]

/-- Number of iterations of the descending loop. -/
theorem qRangeDown_length (step low cur : ℚ) (hs : 0 < step)
    (hc : low ≤ cur) :
    (qRangeDown step low cur).length = (⌊(cur - low) / step⌋).toNat + 1 :=
  qRangeDown_length_aux _ step low cur hs hc rfl

/-! ## Grid geometry (index.js lines 69–104) -/

/-- The pre-expanded bounding box `[west, south, east, north]` (line 61's
result; the bbox/scale collaborators that produce it are external). -/
structure Box where
  west : ℚ
  south : ℚ
  east : ℚ
  north : ℚ

/-- The x-coordinates visited by the inner column loop (lines 79–85 and
102–104): `columns = Math.floor(bboxHorizontalSide / cellWidth)`,
`deltaX = (bboxHorizontalSide - columns * cellWidth) / 2`, then
`currentX` from `west + deltaX` while `currentX <= east`. -/
def colXs (b : Box) (cellWidth : ℚ) : List ℚ :=
  let bboxHorizontalSide := b.east - b.west
  let columns := ⌊bboxHorizontalSide / cellWidth⌋
  let deltaX := (bboxHorizontalSide - (columns : ℚ) * cellWidth) / 2
  qRangeUp cellWidth b.east (b.west + deltaX)

/-- The y-coordinates visited by the outer row loop (lines 79–85 and
96–98): `rows = Math.floor(bboxVerticalSide / cellHeight)`,
`deltaY = (bboxVerticalSide - rows * cellHeight) / 2`, then `currentY`
from `north - deltaY` while `currentY >= south`. -/
def rowYs (b : Box) (cellHeight : ℚ) : List ℚ :=
  let bboxVerticalSide := b.north - b.south
  let rows := ⌊bboxVerticalSide / cellHeight⌋
  let deltaY := (bboxVerticalSide - (rows : ℚ) * cellHeight) / 2
  qRangeDown cellHeight b.south (b.north - deltaY)

/-- Centering arithmetic: with `c = ⌊side/w⌋` and margin
`d = (side - c*w)/2`, the margin is nonnegative, at most `side`, and the
remaining extent `side - d` still floors to `c` cells. -/
theorem floor_centering (side w : ℚ) (hw : 0 < w) (hside : 0 < side) :
    0 ≤ (side - (⌊side / w⌋ : ℚ) * w) / 2 ∧
    (side - (⌊side / w⌋ : ℚ) * w) / 2 ≤ side ∧
    ⌊(side - (side - (⌊side / w⌋ : ℚ) * w) / 2) / w⌋ = ⌊side / w⌋ := by
  have hc0 : (0 : ℤ) ≤ ⌊side / w⌋ :=
    Int.floor_nonneg.2 (div_nonneg hside.le hw.le)
  have hcw : (⌊side / w⌋ : ℚ) * w ≤ side := by
    have h1 : (⌊side / w⌋ : ℚ) ≤ side / w := Int.floor_le _
    calc (⌊side / w⌋ : ℚ) * w ≤ side / w * w := by
          exact mul_le_mul_of_nonneg_right h1 hw.le
      _ = side := div_mul_cancel₀ side hw.ne'
  have hlt : side < ((⌊side / w⌋ : ℚ) + 1) * w := by
    have h1 : side / w < (⌊side / w⌋ : ℚ) + 1 := Int.lt_floor_add_one _
    have h2 : side / w * w < ((⌊side / w⌋ : ℚ) + 1) * w :=
      mul_lt_mul_of_pos_right h1 hw
    rwa [div_mul_cancel₀ side hw.ne'] at h2
  have hcw0 : (0 : ℚ) ≤ (⌊side / w⌋ : ℚ) * w := by
    have : (0 : ℚ) ≤ (⌊side / w⌋ : ℚ) := by exact_mod_cast hc0
    positivity
  refine ⟨by linarith, by linarith, ?_⟩
  rw [Int.floor_eq_iff]
  constructor
  · rw [le_div_iff₀ hw]
    push_cast
    linarith
  · rw [div_lt_iff₀ hw]
    push_cast
    linarith

/-- Evaluation helper: an ascending loop that stops after one pass. -/
theorem qRangeUp_single (step limit cur : ℚ) (hs : 0 < step)
    (h1 : cur ≤ limit) (h2 : ¬ (cur + step ≤ limit)) :
    qRangeUp step limit cur = [cur] := by
  rw [qRangeUp, dif_pos ⟨hs, h1⟩, qRangeUp, dif_neg (by tauto)]

/-- Evaluation helper: a descending loop that stops after one pass. -/
theorem qRangeDown_single (step low cur : ℚ) (hs : 0 < step)
    (h1 : low ≤ cur) (h2 : ¬ (low ≤ cur - step)) :
    qRangeDown step low cur = [cur] := by
  rw [qRangeDown, dif_pos ⟨hs, h1⟩, qRangeDown, dif_neg (by tauto)]

/-- The column loop runs `⌊(east-west)/cellWidth⌋ + 1` times. -/
theorem colXs_length (b : Box) (w : ℚ) (hwe : b.west < b.east)
    (hw : 0 < w) :
    (colXs b w).length = (⌊(b.east - b.west) / w⌋).toNat + 1 := by
  have hside : 0 < b.east - b.west := by linarith
  obtain ⟨hd0, hdle, hfl⟩ := floor_centering (b.east - b.west) w hw hside
  rw [colXs, qRangeUp_length w b.east _ hw (by linarith)]
  have harg : b.east - (b.west +
      ((b.east - b.west) - (⌊(b.east - b.west) / w⌋ : ℚ) * w) / 2) =
      (b.east - b.west) -
      ((b.east - b.west) - (⌊(b.east - b.west) / w⌋ : ℚ) * w) / 2 := by
    ring
  rw [harg, hfl]

/-- The row loop runs `⌊(north-south)/cellHeight⌋ + 1` times. -/
theorem rowYs_length (b : Box) (hh : ℚ) (hsn : b.south < b.north)
    (hhh : 0 < hh) :
    (rowYs b hh).length = (⌊(b.north - b.south) / hh⌋).toNat + 1 := by
  have hside : 0 < b.north - b.south := by linarith
  obtain ⟨hd0, hdle, hfl⟩ := floor_centering (b.north - b.south) hh hhh hside
  rw [rowYs, qRangeDown_length hh b.south _ hhh (by linarith)]
  have harg : (b.north -
      ((b.north - b.south) - (⌊(b.north - b.south) / hh⌋ : ℚ) * hh) / 2) -
      b.south = (b.north - b.south) -
      ((b.north - b.south) - (⌊(b.north - b.south) / hh⌋ : ℚ) * hh) / 2 := by
    ring
  rw [harg, hfl]

/-! ## Features, obstacles, rasterizing scan (index.js lines 87–132) -/

/-- A GeoJSON feature as used by the query: the obstacle collection holds
polygon features, and the code temporarily pushes the start/end point
features into it (lines 59–60). -/
inductive Feature
  | pt (p : Point)
  | poly (ring : List Point)

/-- `isInside` helper (index.js lines 174–181): true iff the point is
inside any of the collection's features, according to the point-in-polygon
collaborator `insF` (`@turf/inside`, external to this repository). -/
def isInside (insF : Point → Feature → Bool) (p : Point)
    (features : List Feature) : Bool :=
  features.any (fun f => insF p f)

/-- The occupancy matrix fed to the A* graph (lines 100–108, 128):
`matrixRow.push(isInsideObstacle ? 0 : 1)`, one row per `currentY`, one
entry per `currentX`. -/
def buildMatrix (insF : Point → Feature → Bool) (features : List Feature)
    (b : Box) (cellWidth cellHeight : ℚ) : List (List Nat) :=
  (rowYs b cellHeight).map (fun y =>
    (colXs b cellWidth).map (fun x =>
      if isInside insF (x, y) features then 0 else 1))

/-- The parallel coordinate matrix (lines 101, 111, 129):
`pointMatrixRow.push(currentX + '|' + currentY)`; the string round-trip
is the identity on the coordinates, so each entry is the point itself. -/
def pointMatrix (b : Box) (cellWidth cellHeight : ℚ) : List (List Point) :=
  (rowYs b cellHeight).map (fun y =>
    (colXs b cellWidth).map (fun x => (x, y)))

/-- Mutable state of the closest-free-node tracking (lines 92–95):
`closestToStart`/`closestToEnd` start as the unset value `[]` (here
`none`), `minDistStart`/`minDistEnd` start at `Infinity` (here `none`). -/
structure ScanAcc where
  closestToStart : Option (Nat × Nat)
  closestToEnd : Option (Nat × Nat)
  minDistStart : Option ℚ
  minDistEnd : Option ℚ

/-- The initial scan state of lines 92–95. -/
def ScanAcc.init : ScanAcc := ⟨none, none, none, none⟩

/-- `d < m` against a possibly-`Infinity` bound (strict `<`, line 115/121). -/
def ltInf (d : ℚ) : Option ℚ → Bool
  | none => true
  | some m => decide (d < m)

/-- Body of the scan for one grid node (lines 105–124): a node blocked by
any obstacle never updates the closest-node candidates; a free node
updates them under strict `<` against the running minimum.
`closestToStart = {x: c, y: r}` stores the column in `x` and row in `y`. -/
def scanStep (distF : Point → Point → ℚ) (insF : Point → Feature → Bool)
    (features : List Feature) (s e : Point) (r c : Nat) (p : Point)
    (acc : ScanAcc) : ScanAcc :=
  let isInsideObstacle := isInside insF p features
  let distStart := distF p s
  let acc1 :=
    if !isInsideObstacle && ltInf distStart acc.minDistStart then
      { acc with minDistStart := some distStart,
                 closestToStart := some (c, r) }
    else acc
  let distEnd := distF p e
  if !isInsideObstacle && ltInf distEnd acc1.minDistEnd then
    { acc1 with minDistEnd := some distEnd, closestToEnd := some (c, r) }
  else acc1

/-- Inner column loop of the scan (lines 102–127), with running column
index `c`. -/
def scanRow (distF : Point → Point → ℚ) (insF : Point → Feature → Bool)
    (features : List Feature) (s e : Point) (r : Nat) (y : ℚ) :
    Nat → List ℚ → ScanAcc → ScanAcc
  | _, [], acc => acc
  | c, x :: xs, acc =>
      scanRow distF insF features s e r y (c + 1) xs
        (scanStep distF insF features s e r c (x, y) acc)

/-- Outer row loop of the scan (lines 96–132), with running row index `r`;
each row restarts the column loop at `c = 0`. -/
def scanAll (distF : Point → Point → ℚ) (insF : Point → Feature → Bool)
    (features : List Feature) (s e : Point) (xs : List ℚ) :
    Nat → List ℚ → ScanAcc → ScanAcc
  | _, [], acc => acc
  | r, y :: ys, acc =>
      scanAll distF insF features s e xs (r + 1) ys
        (scanRow distF insF features s e r y 0 xs acc)

/-- The closest-free-node result of the single grid pass. -/
def scanClosest (distF : Point → Point → ℚ) (insF : Point → Feature → Bool)
    (features : List Feature) (b : Box) (cellWidth cellHeight : ℚ)
    (s e : Point) : ScanAcc :=
  scanAll distF insF features s e (colXs b cellWidth) 0
    (rowYs b cellHeight) ScanAcc.init

/-! ## Path reconstruction (index.js lines 134–162) -/

/-- Three points are collinear (cross product of the two edge vectors is
zero). -/
def collinearB (a b c : Point) : Bool :=
  decide ((b.1 - a.1) * (c.2 - a.2) = (c.1 - a.1) * (b.2 - a.2))

/-- Modelled from the spec: interior step of `@turf/clean-coords` (an
external collaborator, not in `src/`), which removes redundant
consecutive duplicate or collinear points from a line; `prev` is the last
kept point, `q` the candidate under inspection, the final point is always
kept. -/
def cleanAux (prev q : Point) : List Point → List Point
  | [] => [q]
  | r :: rest =>
      if q = prev || collinearB prev q r then cleanAux prev r rest
      else q :: cleanAux q r rest

/-- Modelled from the spec: `@turf/clean-coords` on a LineString
(index.js line 162 `cleanCoords(lineString(path))`): the first and last
coordinates are kept, redundant interior coordinates are dropped. -/
def cleanCoords : List Point → List Point
  | p :: q :: rest => p :: cleanAux p q rest
  | l => l

/-- Mapping the A* result nodes back to coordinates (lines 143–146):
`pointMatrix[coord.x][coord.y]` where the node's `x` is the row index and
`y` the column index; an out-of-range access is the JavaScript crash,
modelled as `none`. -/
def mapNodes (pm : List (List Point)) (nodes : List (Nat × Nat)) :
    Option (List Point) :=
  nodes.mapM (fun rc => (pm.get? rc.1).bind (fun row => row.get? rc.2))

/-! ## The query (index.js lines 43–163) -/

/-- The `options.resolution` value as received from JavaScript: absent
(`undefined`), a number (embedded exactly as a rational), or a truthy
non-numeric value (a non-empty string, an object, …). -/
inductive ResOpt
  | absent
  | num (q : ℚ)
  | nonNum

/-- JavaScript truthiness of the resolution option (`resolution && …`,
`!resolution`): `undefined` is falsy, a number is falsy iff zero, the
modelled non-numeric values are truthy. -/
def resTruthy : ResOpt → Bool
  | .absent => false
  | .num q => decide (q ≠ 0)
  | .nonNum => true

/-- `isNumber(resolution)` (`@turf/helpers`, external): true exactly for
numbers. -/
def resIsNumber : ResOpt → Bool
  | .num _ => true
  | _ => false

/-- `resolution <= 0` under JavaScript coercion: `undefined <= 0` is
false (NaN comparison), a number compares normally, and the modelled
non-numeric values compare false. -/
def resLeZero : ResOpt → Bool
  | .num q => decide (q ≤ 0)
  | _ => false

/-- Line 55's guard:
`resolution && !isNumber(resolution) || resolution <= 0`. -/
def resInvalid (r : ResOpt) : Bool :=
  (resTruthy r && !resIsNumber r) || resLeZero r

/-- The numeric value carried by the option (only read when truthy and
valid, i.e. for a positive number). -/
def resQ : ResOpt → ℚ
  | .num q => q
  | _ => 0

/-- The query's failure modes: the line 55 throw
(`resolution must be a number, greater than 0`), and the TypeError raised
at lines 138–139 when `closestToStart`/`closestToEnd` are still unset
(or a result node indexes outside `pointMatrix`). -/
inductive Err
  | invalidResolution
  | lookupFailed

/-- The external collaborators consumed by the query: `distance`
(`@turf/distance`), the composite `bbox ∘ scale ∘ bboxPolygon ∘ bbox` of
line 61, the point-in-polygon test (`@turf/inside`), and the A* search
(`javascript-astar`), whose nodes are `(row, col)` pairs. -/
structure Collab where
  distF : Point → Point → ℚ
  boxF : List Feature → Box
  insF : Point → Feature → Bool
  searchF : List (List Nat) → Nat × Nat → Nat × Nat → List (Nat × Nat)

/-- The bounding box of line 61, computed over the obstacle collection
with the start/end features pushed (lines 58–61). -/
def usedBox (C : Collab) (s e : Point) (features : List Feature) : Box :=
  C.boxF (features ++ [Feature.pt s, Feature.pt e])

/-- The auto-derived resolution of lines 62–65:
`distance([west, south], [east, south], units) / 100` (the box's southern
edge divided by 100). -/
def autoResolution (C : Collab) (s e : Point) (features : List Feature) :
    ℚ :=
  C.distF ((usedBox C s e features).west, (usedBox C s e features).south)
    ((usedBox C s e features).east, (usedBox C s e features).south) / 100

/-- The resolution the grid is built with: the supplied value if truthy
(`if (!resolution) resolution = width / 100`), otherwise auto-derived. -/
def usedResolution (C : Collab) (s e : Point) (features : List Feature)
    (res : ResOpt) : ℚ :=
  if resTruthy res then resQ res else autoResolution C s e features

/-- Cell dimensions (lines 74–77): the linear resolution converted to a
fraction of the box edge by the distance collaborator, times the box's
coordinate-space width/height. -/
def cellSizes (distF : Point → Point → ℚ) (b : Box) (resolution : ℚ) :
    ℚ × ℚ :=
  let xFraction := resolution / distF (b.west, b.south) (b.east, b.south)
  let cellWidth := xFraction * (b.east - b.west)
  let yFraction := resolution / distF (b.west, b.south) (b.west, b.north)
  let cellHeight := yFraction * (b.north - b.south)
  (cellWidth, cellHeight)

/-- The cell width the query builds its grid with. -/
def usedCellWidth (C : Collab) (s e : Point) (features : List Feature)
    (res : ResOpt) : ℚ :=
  (cellSizes C.distF (usedBox C s e features)
    (usedResolution C s e features res)).1

/-- The cell height the query builds its grid with. -/
def usedCellHeight (C : Collab) (s e : Point) (features : List Feature)
    (res : ResOpt) : ℚ :=
  (cellSizes C.distF (usedBox C s e features)
    (usedResolution C s e features res)).2

/-- Lines 66–162: pop the two pushed features back off the collection,
build the grid and the occupancy/point matrices, run the scan, look up
the closest nodes (`graph.grid[closestToStart.y][closestToStart.x]` — a
TypeError when they are unset), search, and rebuild the path
`[start] ++ mapped nodes ++ [end]` through `cleanCoords`.  Returns the
result together with the final state of the caller's collection. -/
def shortestPathWithBox (C : Collab) (s e : Point)
    (collection : List Feature) (b : Box) (resolution : ℚ) :
    Except Err (List Point) × List Feature :=
  let collection2 := collection.dropLast.dropLast
  let cellWidth := (cellSizes C.distF b resolution).1
  let cellHeight := (cellSizes C.distF b resolution).2
  let matrix := buildMatrix C.insF collection2 b cellWidth cellHeight
  let pm := pointMatrix b cellWidth cellHeight
  let acc := scanClosest C.distF C.insF collection2 b cellWidth cellHeight
    s e
  match acc.closestToStart, acc.closestToEnd with
  | some sN, some eN =>
      let result := C.searchF matrix (sN.2, sN.1) (eN.2, eN.1)
      match mapNodes pm result with
      | some pts => (.ok (cleanCoords (s :: (pts ++ [e]))), collection2)
      | none => (.error .lookupFailed, collection2)
  | _, _ => (.error .lookupFailed, collection2)

/-- `module.exports = function (start, end, obstacles, options)`
(index.js lines 43–163).  `obstacles = none` is an absent collection;
geometry-type validation is enforced by the embedding's types.  The
second component is the final state of the caller-owned obstacle
collection (the code pushes the endpoints into it and pops them back,
lines 58–67). -/
def shortestPath (C : Collab) (s e : Point)
    (obstacles : Option (List Feature)) (res : ResOpt) :
    Except Err (List Point) × Option (List Feature) :=
  match obstacles with
  | none => (.ok [s, e], none)
  | some features =>
      if features.isEmpty then (.ok [s, e], some features)
      else if resInvalid res then (.error .invalidResolution, some features)
      else
        let r := shortestPathWithBox C s e
          (features ++ [Feature.pt s, Feature.pt e])
          (usedBox C s e features) (usedResolution C s e features res)
        (r.1, some r.2)

/-! ## Helper lemmas -/

/-- Pushing two elements and popping twice restores a list. -/
theorem dropLast_dropLast_append (l : List Feature) (a b : Feature) :
    ((l ++ [a, b]).dropLast).dropLast = l := by
  have h : l ++ [a, b] = (l ++ [a]) ++ [b] := by simp
  rw [h, List.dropLast_concat, List.dropLast_concat]

/-- The second component of `shortestPathWithBox` is always the collection
after the two pops. -/
theorem shortestPathWithBox_snd (C : Collab) (s e : Point)
    (collection : List Feature) (b : Box) (resolution : ℚ) :
    (shortestPathWithBox C s e collection b resolution).2 =
      collection.dropLast.dropLast := by
  rw [shortestPathWithBox]
  split
  · dsimp only
    split <;> rfl
  · rfl

/-! ## Claim theorems -/

/-- Claim C1 (code_bug evidence): evaluating the classifier of
`src/lib/inside.js` against the square ring
`[(0,0),(0,10),(10,10),(10,0),(0,0)]`: the strictly interior point
`(5,5)` is classified `false` (the claim and the spec say `true`; the
previous-vertex index `j` is only advanced when a toggle occurs, so the
edge from `(10,10)` to `(10,0)` is never tested).  The strictly exterior
point `(15,15)` is classified `false` as claimed. -/
theorem C1_classify_eval :
    classify (5, 5) squareRing = false ∧
    classify (15, 15) squareRing = false := by
  constructor <;>
    norm_num [classify, classifyStep, edgeToggle, squareRing,
      List.range_succ]

/-- Claim C4 (code_bug evidence): at the square ring and interior point
`(5,5)`, the textbook even-odd algorithm (previous-vertex index advanced
every iteration) answers `true` while the implementation answers `false`:
the implementation's edge iteration is not equivalent to iterating all
consecutive edges. -/
theorem C4_not_equivalent :
    classifyTextbook (5, 5) squareRing = true ∧
    classify (5, 5) squareRing = false ∧
    classifyTextbook (5, 5) squareRing ≠ classify (5, 5) squareRing := by
  refine ⟨?_, ?_, ?_⟩ <;>
    norm_num [classify, classifyTextbook, classifyStep, edgeToggle,
      squareRing, List.range_succ]

/-- Claim C9: a horizontal edge (`y_j == y_i`) can never satisfy the
toggle condition of the classifier, whatever the queried point and
whatever the x-coordinates (in particular for zero-length edges); hence
the `&&` short-circuit means the x-intersection division is never
reached, and `classify` is total on rings with horizontal or zero-length
edges. -/
theorem C9_horizontal_edge_no_toggle (x y : ℚ) (vi vj : Point)
    (h : vi.2 = vj.2) : edgeToggle x y vi vj = false := by
  rw [edgeToggle, h]
  simp

/-- Witness for C9: the horizontal edge from `(3,7)` to `(9,7)` does not
toggle at the point `(6,7)`, and the zero-length edge at `(2,2)` does not
toggle at `(1,1)`. -/
theorem C9_horizontal_edge_no_toggle_witness :
    edgeToggle 6 7 (3, 7) (9, 7) = false ∧
    edgeToggle 1 1 (2, 2) (2, 2) = false :=
  ⟨C9_horizontal_edge_no_toggle 6 7 (3, 7) (9, 7) rfl,
   C9_horizontal_edge_no_toggle 1 1 (2, 2) (2, 2) rfl⟩

/-- Claim C6: with an absent or empty obstacle collection the query
short-circuits (line 50) and the output is exactly `[start, end]`, for
every start, end, collaborators and resolution option — in particular for
start `(-5,-6)` and end `(9,-6)`. -/
theorem C6_no_obstacle_shortcut (C : Collab) (s e : Point) (res : ResOpt) :
    shortestPath C s e none res = (.ok [s, e], none) ∧
    shortestPath C s e (some []) res = (.ok [s, e], some []) ∧
    (shortestPath C ((-5 : ℚ), (-6 : ℚ)) (9, -6) none res).1 =
      .ok [(-5, -6), (9, -6)] :=
  ⟨rfl, rfl, rfl⟩

/-- Claim C7: the query never (net) mutates the caller-owned obstacle
collection: whatever the outcome, the final state of the collection — the
two endpoint features are pushed (lines 59–60) and popped back
(lines 66–67) — is element-for-element the original; the start and end
inputs are immutable values of the embedding. -/
theorem C7_no_net_mutation (C : Collab) (s e : Point)
    (obstacles : Option (List Feature)) (res : ResOpt) :
    (shortestPath C s e obstacles res).2 = obstacles := by
  match obstacles with
  | none => rfl
  | some features =>
      rw [shortestPath]
      by_cases h1 : features.isEmpty
      · rw [if_pos h1]
      · rw [if_neg h1]
        by_cases h2 : resInvalid res
        · rw [if_pos h2]
        · rw [if_neg h2]
          simp only [shortestPathWithBox_snd, dropLast_dropLast_append]

/-- Claim C2 counterexample: for the bounding box `[0,0,10,10]` with
`cellWidth = cellHeight = 3`, the claim's counts are
`⌊10/3⌋ = 3` rows and columns, but the occupancy matrix produced by the
grid pass has 4 rows (and 4 columns): the `while` loops run from
`west + deltaX` to `east - deltaX` inclusive, one more iteration than the
floored cell count. -/
theorem C2_counterexample :
    (buildMatrix (fun _ _ => false) [] ⟨0, 0, 10, 10⟩ 3 3).length = 4 ∧
    (⌊((10 : ℚ) - 0) / 3⌋).toNat = 3 ∧ (4 : ℕ) ≠ 3 := by
  refine ⟨?_, by norm_num; omega, by norm_num⟩
  have h := rowYs_length ⟨0, 0, 10, 10⟩ 3 (by norm_num) (by norm_num)
  rw [buildMatrix, List.length_map, h]
  norm_num
  omega

/-- Claim C2 as amended: for every bounding box with `west < east` and
`south < north` and positive cell sizes, the occupancy matrix has exactly
`⌊verticalExtent / cellHeight⌋ + 1` rows and every row has exactly
`⌊horizontalExtent / cellWidth⌋ + 1` columns (the flooring leftover is
still split evenly as a margin on both sides; the scan places one node
per cell boundary, fencepost-style, from margin to margin inclusive). -/
theorem C2_matrix_dimensions (insF : Point → Feature → Bool)
    (features : List Feature) (b : Box) (w hh : ℚ)
    (hwe : b.west < b.east) (hsn : b.south < b.north)
    (hw : 0 < w) (hhh : 0 < hh) :
    (buildMatrix insF features b w hh).length =
      (⌊(b.north - b.south) / hh⌋).toNat + 1 ∧
    ∀ row ∈ buildMatrix insF features b w hh,
      row.length = (⌊(b.east - b.west) / w⌋).toNat + 1 := by
  constructor
  · rw [buildMatrix, List.length_map, rowYs_length b hh hsn hhh]
  · intro row hrow
    rw [buildMatrix, List.mem_map] at hrow
    obtain ⟨y, _, rfl⟩ := hrow
    rw [List.length_map, colXs_length b w hwe hw]

/-- Witness for C2 (amended): for the box `[0,0,1,1]` with cell sizes 5
(larger than the box, floored counts 0), the matrix has
`⌊1/5⌋ + 1 = 1` row. -/
theorem C2_matrix_dimensions_witness :
    (buildMatrix (fun _ _ => false) [] ⟨0, 0, 1, 1⟩ 5 5).length =
      (⌊((1 : ℚ) - 0) / 5⌋).toNat + 1 :=
  (C2_matrix_dimensions (fun _ _ => false) [] ⟨0, 0, 1, 1⟩ 5 5
    (by norm_num) (by norm_num) (by norm_num) (by norm_num)).1

/-- Claim C10: for every bounding box with `west < east` and
`south < north` and positive cell sizes — including cell sizes larger
than the box, where the floored counts are 0 — both loops execute at
least once, so the occupancy matrix and the coordinate matrix are never
empty and every row holds at least one node. -/
theorem C10_matrix_never_empty (insF : Point → Feature → Bool)
    (features : List Feature) (b : Box) (w hh : ℚ)
    (hwe : b.west < b.east) (hsn : b.south < b.north)
    (hw : 0 < w) (hhh : 0 < hh) :
    0 < (buildMatrix insF features b w hh).length ∧
    (∀ row ∈ buildMatrix insF features b w hh, 0 < row.length) ∧
    0 < (pointMatrix b w hh).length ∧
    (∀ row ∈ pointMatrix b w hh, 0 < row.length) := by
  have hys := rowYs_length b hh hsn hhh
  have hxs := colXs_length b w hwe hw
  refine ⟨?_, ?_, ?_, ?_⟩
  · rw [buildMatrix, List.length_map, hys]
    omega
  · intro row hrow
    rw [buildMatrix, List.mem_map] at hrow
    obtain ⟨y, _, rfl⟩ := hrow
    rw [List.length_map, hxs]
    omega
  · rw [pointMatrix, List.length_map, hys]
    omega
  · intro row hrow
    rw [pointMatrix, List.mem_map] at hrow
    obtain ⟨y, _, rfl⟩ := hrow
    rw [List.length_map, hxs]
    omega

/-- Witness for C10: box `[0,0,2,2]` and cell sizes 9, much larger than
the box: the matrices still hold a row. -/
theorem C10_matrix_never_empty_witness :
    0 < (buildMatrix (fun _ _ => true) [] ⟨0, 0, 2, 2⟩ 9 9).length ∧
    0 < (pointMatrix ⟨0, 0, 2, 2⟩ 9 9).length := by
  have h := C10_matrix_never_empty (fun _ _ => true) [] ⟨0, 0, 2, 2⟩ 9 9
    (by norm_num) (by norm_num) (by norm_num) (by norm_num)
  exact ⟨h.1, h.2.2.1⟩

/-- A node blocked by an obstacle never updates the closest-node
candidates (lines 115, 121: the updates require `!isInsideObstacle`). -/
theorem scanStep_blocked (distF : Point → Point → ℚ)
    (insF : Point → Feature → Bool) (features : List Feature) (s e : Point)
    (r c : Nat) (p : Point) (acc : ScanAcc)
    (h : isInside insF p features = true) :
    scanStep distF insF features s e r c p acc = acc := by
  rw [scanStep]
  simp [h]

/-- A fully blocked row leaves the scan state unchanged. -/
theorem scanRow_blocked (distF : Point → Point → ℚ)
    (insF : Point → Feature → Bool) (features : List Feature) (s e : Point)
    (r : Nat) (y : ℚ) (xs : List ℚ)
    (hall : ∀ x ∈ xs, isInside insF (x, y) features = true) :
    ∀ c acc, scanRow distF insF features s e r y c xs acc = acc := by
  induction xs with
  | nil => intro c acc; rfl
  | cons x xs ih =>
      intro c acc
      rw [scanRow,
        scanStep_blocked distF insF features s e r c (x, y) acc
          (hall x (by simp))]
      exact ih (fun x hx => hall x (by simp [hx])) (c + 1) acc

/-- A fully blocked grid leaves the scan state unchanged. -/
theorem scanAll_blocked (distF : Point → Point → ℚ)
    (insF : Point → Feature → Bool) (features : List Feature) (s e : Point)
    (xs : List ℚ) (ys : List ℚ)
    (hall : ∀ y ∈ ys, ∀ x ∈ xs, isInside insF (x, y) features = true) :
    ∀ r acc, scanAll distF insF features s e xs r ys acc = acc := by
  induction ys with
  | nil => intro r acc; rfl
  | cons y ys ih =>
      intro r acc
      rw [scanAll,
        scanRow_blocked distF insF features s e r y xs
          (hall y (by simp)) 0 acc]
      exact ih (fun y hy => hall y (by simp [hy])) (r + 1) acc

/-- If every scanned grid point is blocked, the closest-free-node results
stay at their initial unset values. -/
theorem scanClosest_blocked (distF : Point → Point → ℚ)
    (insF : Point → Feature → Bool) (features : List Feature) (b : Box)
    (cw chh : ℚ) (s e : Point)
    (hall : ∀ y ∈ rowYs b chh, ∀ x ∈ colXs b cw,
      isInside insF (x, y) features = true) :
    scanClosest distF insF features b cw chh s e = ScanAcc.init :=
  scanAll_blocked distF insF features s e (colXs b cw) (rowYs b chh) hall 0
    ScanAcc.init

/-- With the closest-node results unset, the node lookup of lines 138–139
fails (the JavaScript TypeError), distinct from any path result. -/
theorem shortestPathWithBox_noFreeNode (C : Collab) (s e : Point)
    (collection : List Feature) (b : Box) (resolution : ℚ)
    (hscan : scanClosest C.distF C.insF collection.dropLast.dropLast b
      (cellSizes C.distF b resolution).1 (cellSizes C.distF b resolution).2
      s e = ScanAcc.init) :
    (shortestPathWithBox C s e collection b resolution).1 =
      .error .lookupFailed := by
  rw [shortestPathWithBox]
  dsimp only
  rw [hscan]
  rfl

/-- Claim C3: if every node of the rasterized grid is blocked (every
scanned grid point lies inside some obstacle), `closestToStart` and
`closestToEnd` stay unset and the query terminates with the distinct
no-free-node failure — never a defaulted blocked node, never a
straight-line path. -/
theorem C3_all_blocked_noFreeNode (C : Collab) (s e : Point)
    (features : List Feature) (res : ResOpt) (hne : features ≠ [])
    (hres : resInvalid res = false)
    (hall : ∀ y ∈ rowYs (usedBox C s e features)
        (usedCellHeight C s e features res),
      ∀ x ∈ colXs (usedBox C s e features)
        (usedCellWidth C s e features res),
      isInside C.insF (x, y) features = true) :
    (scanClosest C.distF C.insF features (usedBox C s e features)
      (usedCellWidth C s e features res)
      (usedCellHeight C s e features res) s e).closestToStart = none ∧
    (scanClosest C.distF C.insF features (usedBox C s e features)
      (usedCellWidth C s e features res)
      (usedCellHeight C s e features res) s e).closestToEnd = none ∧
    shortestPath C s e (some features) res =
      (.error .lookupFailed, some features) := by
  have hscan := scanClosest_blocked C.distF C.insF features
    (usedBox C s e features) (usedCellWidth C s e features res)
    (usedCellHeight C s e features res) s e hall
  refine ⟨by rw [hscan]; rfl, by rw [hscan]; rfl, ?_⟩
  obtain ⟨f, fs, rfl⟩ : ∃ f fs, features = f :: fs := by
    cases features with
    | nil => exact absurd rfl hne
    | cons f fs => exact ⟨f, fs, rfl⟩
  have h2 : ((f :: fs) ++ [Feature.pt s, Feature.pt e]).dropLast.dropLast
      = f :: fs := dropLast_dropLast_append _ _ _
  have h3 := shortestPathWithBox_noFreeNode C s e
    ((f :: fs) ++ [Feature.pt s, Feature.pt e])
    (usedBox C s e (f :: fs)) (usedResolution C s e (f :: fs) res)
    (by rw [h2]; exact hscan)
  rw [shortestPath, if_neg (by simp), if_neg (by simp [hres])]
  show ((shortestPathWithBox C s e _ _ _).1,
    some (shortestPathWithBox C s e _ _ _).2) = _
  rw [h3, shortestPathWithBox_snd, h2]

/-- Collaborators for the all-blocked witness: every point classifies as
inside every feature. -/
def CAllBlocked : Collab where
  distF := fun _ _ => 1
  boxF := fun _ => ⟨0, 0, 1, 1⟩
  insF := fun _ _ => true
  searchF := fun _ _ _ => []

/-- Witness for C3: a one-obstacle collection whose hit test blocks every
grid node; the query fails with the no-free-node lookup failure. -/
theorem C3_all_blocked_noFreeNode_witness :
    (scanClosest CAllBlocked.distF CAllBlocked.insF [Feature.poly []]
      (usedBox CAllBlocked (0, 0) (1, 1) [Feature.poly []])
      (usedCellWidth CAllBlocked (0, 0) (1, 1) [Feature.poly []] (.num 2))
      (usedCellHeight CAllBlocked (0, 0) (1, 1) [Feature.poly []] (.num 2))
      (0, 0) (1, 1)).closestToStart = none ∧
    (scanClosest CAllBlocked.distF CAllBlocked.insF [Feature.poly []]
      (usedBox CAllBlocked (0, 0) (1, 1) [Feature.poly []])
      (usedCellWidth CAllBlocked (0, 0) (1, 1) [Feature.poly []] (.num 2))
      (usedCellHeight CAllBlocked (0, 0) (1, 1) [Feature.poly []] (.num 2))
      (0, 0) (1, 1)).closestToEnd = none ∧
    shortestPath CAllBlocked (0, 0) (1, 1) (some [Feature.poly []])
      (.num 2) = (.error .lookupFailed, some [Feature.poly []]) :=
  C3_all_blocked_noFreeNode CAllBlocked (0, 0) (1, 1) [Feature.poly []]
    (.num 2) (by simp) (by norm_num [resInvalid, resTruthy, resIsNumber,
      resLeZero]) (fun _ _ _ _ => rfl)

/-- The cleaning pass always keeps at least the final point. -/
theorem cleanAux_ne_nil (l : List Point) :
    ∀ prev q, cleanAux prev q l ≠ [] := by
  induction l with
  | nil => intro prev q; simp [cleanAux]
  | cons r rest ih =>
      intro prev q
      rw [cleanAux]
      split
      · exact ih prev r
      · simp

/-- The cleaning pass keeps the last point of the line. -/
theorem cleanAux_getLast (l : List Point) :
    ∀ prev q, (cleanAux prev q l).getLast? = (q :: l).getLast? := by
  induction l with
  | nil => intro prev q; rfl
  | cons r rest ih =>
      intro prev q
      rw [cleanAux]
      split
      · rw [ih prev r, List.getLast?_cons_cons]
      · obtain ⟨c, cs, hc⟩ : ∃ c cs, cleanAux q r rest = c :: cs := by
          cases h : cleanAux q r rest with
          | nil => exact absurd h (cleanAux_ne_nil rest q r)
          | cons c cs => exact ⟨c, cs, rfl⟩
        rw [hc, List.getLast?_cons_cons, ← hc, ih q r,
          List.getLast?_cons_cons]

/-- `cleanCoords` keeps the first point of the line. -/
theorem cleanCoords_head (p : Point) (l : List Point) (hl : l ≠ []) :
    (cleanCoords (p :: l)).head? = some p := by
  cases l with
  | nil => exact absurd rfl hl
  | cons q rest => rfl

/-- `cleanCoords` keeps the last point of the line. -/
theorem cleanCoords_getLast (p : Point) (l : List Point) (hl : l ≠ []) :
    (cleanCoords (p :: l)).getLast? = l.getLast? := by
  cases l with
  | nil => exact absurd rfl hl
  | cons q rest =>
      show (p :: cleanAux p q rest).getLast? = _
      obtain ⟨c, cs, hc⟩ : ∃ c cs, cleanAux p q rest = c :: cs := by
        cases h : cleanAux p q rest with
        | nil => exact absurd h (cleanAux_ne_nil rest p q)
        | cons c cs => exact ⟨c, cs, rfl⟩
      rw [hc, List.getLast?_cons_cons, ← hc, cleanAux_getLast rest p q]

/-- Claim C5: whenever a query over a present, non-empty obstacle set
produces a path, the path's first point is exactly the caller-supplied
start coordinate and its last point exactly the caller-supplied end
coordinate — the path is built as `[start] ++ mappedNodes ++ [end]`
(lines 142–147) and the endpoints survive the cleaning pass. -/
theorem C5_endpoints_preserved (C : Collab) (s e : Point)
    (features : List Feature) (res : ResOpt) (path : List Point)
    (hne : features ≠ [])
    (hok : (shortestPath C s e (some features) res).1 = .ok path) :
    path.head? = some s ∧ path.getLast? = some e := by
  obtain ⟨f, fs, rfl⟩ : ∃ f fs, features = f :: fs := by
    cases features with
    | nil => exact absurd rfl hne
    | cons f fs => exact ⟨f, fs, rfl⟩
  rw [shortestPath, if_neg (by simp)] at hok
  by_cases h2 : resInvalid res
  · rw [if_pos h2] at hok
    exact absurd hok (by simp)
  · rw [if_neg h2] at hok
    dsimp only at hok
    rw [shortestPathWithBox] at hok
    dsimp only at hok
    split at hok
    next sN eN hsN heN =>
      split at hok
      next pts hpts =>
        have hpath : path = cleanCoords (s :: (pts ++ [e])) := by
          simpa using hok.symm
        subst hpath
        constructor
        · exact cleanCoords_head s (pts ++ [e]) (by simp)
        · rw [cleanCoords_getLast s (pts ++ [e]) (by simp)]
          simp [List.getLast?_concat]
      next => exact absurd hok (by simp)
    next => exact absurd hok (by simp)

/-- Collaborators for the free-grid witnesses: no point is ever inside an
obstacle, the box is `[0,0,1,1]`, all distances are 1, and the search
returns no intermediate nodes. -/
def CFree : Collab where
  distF := fun _ _ => 1
  boxF := fun _ => ⟨0, 0, 1, 1⟩
  insF := fun _ _ => false
  searchF := fun _ _ _ => []

/-- Witness for C5: a concrete query over one obstacle feature that
produces the path `[(0,0), (1,1)]`, whose first and last points are the
original start and end. -/
theorem C5_endpoints_preserved_witness :
    (shortestPath CFree (0, 0) (1, 1) (some [Feature.poly []])
      (.num 2)).1 = .ok [(0, 0), (1, 1)] ∧
    ([((0 : ℚ), (0 : ℚ)), (1, 1)] : List Point).head? = some (0, 0) ∧
    ([((0 : ℚ), (0 : ℚ)), (1, 1)] : List Point).getLast? = some (1, 1) := by
  have hx : colXs ⟨0, 0, 1, 1⟩ 2 = [(1 : ℚ) / 2] := by
    rw [colXs]
    dsimp only
    rw [qRangeUp_single _ _ _ (by norm_num) (by norm_num) (by norm_num)]
    norm_num
  have hy : rowYs ⟨0, 0, 1, 1⟩ 2 = [(1 : ℚ) / 2] := by
    rw [rowYs]
    dsimp only
    rw [qRangeDown_single _ _ _ (by norm_num) (by norm_num) (by norm_num)]
    norm_num
  have hok : (shortestPath CFree (0, 0) (1, 1) (some [Feature.poly []])
      (.num 2)).1 = .ok [(0, 0), (1, 1)] := by
    norm_num [shortestPath, shortestPathWithBox, usedBox, usedResolution,
      autoResolution, resInvalid, resTruthy, resIsNumber, resLeZero, resQ,
      cellSizes, CFree, buildMatrix, pointMatrix, scanClosest, scanAll,
      scanRow, scanStep, isInside, ltInf, mapNodes, cleanCoords, cleanAux,
      ScanAcc.init, hx, hy, List.mapM.loop]
  exact ⟨hok, C5_endpoints_preserved CFree (0, 0) (1, 1)
    [Feature.poly []] (.num 2) [(0, 0), (1, 1)] (by simp) hok⟩

/-- Claim C8 counterexample: a supplied resolution of `-1` (≤ 0) does not
make the query fail when the obstacle collection is absent or empty — the
no-obstacle shortcut of line 50 returns `[start, end]` before the
resolution validation of line 55 runs. -/
theorem C8_counterexample :
    shortestPath CFree (0, 0) (1, 1) none (.num (-1)) =
      (.ok [(0, 0), (1, 1)], none) ∧
    shortestPath CFree (0, 0) (1, 1) (some []) (.num (-1)) =
      (.ok [(0, 0), (1, 1)], some []) ∧
    resLeZero (.num (-1)) = true := by
  refine ⟨rfl, rfl, by norm_num [resLeZero]⟩

/-- Claim C8 as amended: when the obstacle collection is present and
non-empty, a supplied resolution that is non-numeric or ≤ 0 makes the
query fail synchronously with the InvalidArgument error, and an absent
resolution raises no such error — the query behaves exactly as if the
resolution were auto-derived as the box's southern-edge distance divided
by 100 (whenever that auto-derived value is positive).  With an absent or
empty obstacle collection the shortcut of line 50 returns first. -/
theorem C8_resolution_validation (C : Collab) (s e : Point)
    (features : List Feature) (res : ResOpt) (hne : features ≠ []) :
    (resInvalid res = true →
      shortestPath C s e (some features) res =
        (.error .invalidResolution, some features)) ∧
    (0 < autoResolution C s e features →
      shortestPath C s e (some features) .absent =
        shortestPath C s e (some features)
          (.num (autoResolution C s e features))) := by
  obtain ⟨f, fs, rfl⟩ : ∃ f fs, features = f :: fs := by
    cases features with
    | nil => exact absurd rfl hne
    | cons f fs => exact ⟨f, fs, rfl⟩
  constructor
  · intro hinv
    rw [shortestPath, if_neg (by simp), if_pos hinv]
  · intro hpos
    have hv2 : resInvalid (.num (autoResolution C s e (f :: fs)))
        = false := by
      rw [resInvalid]
      simp [resTruthy, resIsNumber, resLeZero, not_le.2 hpos]
    have hur : usedResolution C s e (f :: fs)
        (.num (autoResolution C s e (f :: fs))) =
        usedResolution C s e (f :: fs) .absent := by
      rw [usedResolution, usedResolution]
      simp [resTruthy, resQ, hpos.ne']
    rw [shortestPath, if_neg (by simp),
      if_neg (by simp [resInvalid, resTruthy, resLeZero]),
      shortestPath, if_neg (by simp), if_neg (by simp [hv2]), hur]

/-- Witness for C8 (amended): with one obstacle feature, resolution `-1`
raises the InvalidArgument error, and an absent resolution behaves as the
auto-derived resolution (here `1/100`). -/
theorem C8_resolution_validation_witness :
    shortestPath CFree (0, 0) (1, 1) (some [Feature.poly []])
      (.num (-1)) = (.error .invalidResolution, some [Feature.poly []]) ∧
    shortestPath CFree (0, 0) (1, 1) (some [Feature.poly []]) .absent =
      shortestPath CFree (0, 0) (1, 1) (some [Feature.poly []])
        (.num (autoResolution CFree (0, 0) (1, 1) [Feature.poly []])) := by
  have h := C8_resolution_validation CFree (0, 0) (1, 1)
    [Feature.poly []] (.num (-1)) (by simp)
  exact ⟨h.1 (by norm_num [resInvalid, resTruthy, resIsNumber, resLeZero]),
    h.2 (by norm_num [autoResolution, usedBox, CFree])⟩

end Turf
